import Mathlib

/-!
Verification of the fuzzy-logic traffic light system
(`fuzzy_controller.py`, `traffic_simulation.py`).

The Python code is shallowly embedded over `ℚ`.  Machine floats are
modelled by exact rationals: every arithmetic operation performed by the
code (piecewise-linear membership evaluation, `min`/`max` rule inference,
the trapezoid-slab centroid of `skfuzzy.defuzz`, `np.clip`, Python
`round(x, 1)`) is expressed exactly.

The controller (`TrafficLightController`) configures `scikit-fuzzy`:
* antecedent/consequent universes `np.arange(0,101)`, `np.arange(0,121)`,
  `np.arange(5,91)`;
* trapezoid/triangle membership functions whose control points are
  integers, so sampling on the unit grid followed by linear
  interpolation (`interp_membership`) reproduces the ideal piecewise
  linear shapes exactly — the definitions below are those shapes;
* nine rules combined with `min` (AND) whose same-consequent activations
  accumulate with `max`, and the aggregated output curve is the
  pointwise `max` of the clipped consequent curves;
* centroid defuzzification: `skfuzzy.defuzz` first asserts that the
  sampled curve does not sum to zero ("Total area is zero in
  defuzzification!") and otherwise returns the exact continuous centroid
  of the piecewise-linear interpolation of the samples, computed
  slab-by-slab; for a slab `[x1, x1+1]` with heights `y1, y2` the
  contribution `moment * area` equals `x1*(y1+y2)/2 + (y1+2*y2)/6` and
  the area equals `(y1+y2)/2` in every one of skfuzzy's four cases.
-/

namespace Traffic

/-- Density term "low": `fuzz.trapmf(universe, [0, 0, 25, 45])` evaluated on
the clamped input domain `[0, 100]`. -/
def muDensityLow (x : ℚ) : ℚ :=
  if x ≤ 25 then 1 else if x < 45 then (45 - x) / 20 else 0

/-- Density term "medium": `fuzz.trimf(universe, [25, 50, 75])`. -/
def muDensityMed (x : ℚ) : ℚ :=
  if x ≤ 25 then 0
  else if x ≤ 50 then (x - 25) / 25
  else if x < 75 then (75 - x) / 25
  else 0

/-- Density term "high": `fuzz.trapmf(universe, [55, 75, 100, 100])`. -/
def muDensityHigh (x : ℚ) : ℚ :=
  if x ≤ 55 then 0 else if x < 75 then (x - 55) / 20 else 1

/-- Wait term "short": `fuzz.trapmf(universe, [0, 0, 30, 50])`. -/
def muWaitShort (x : ℚ) : ℚ :=
  if x ≤ 30 then 1 else if x < 50 then (50 - x) / 20 else 0

/-- Wait term "medium": `fuzz.trimf(universe, [30, 60, 90])`. -/
def muWaitMed (x : ℚ) : ℚ :=
  if x ≤ 30 then 0
  else if x ≤ 60 then (x - 30) / 30
  else if x < 90 then (90 - x) / 30
  else 0

/-- Wait term "long": `fuzz.trapmf(universe, [70, 90, 120, 120])`. -/
def muWaitLong (x : ℚ) : ℚ :=
  if x ≤ 70 then 0 else if x < 90 then (x - 70) / 20 else 1

/-- Green term "short": `fuzz.trapmf(universe, [5, 5, 20, 35])`; the green
universe starts at 5. -/
def muGreenShort (x : ℚ) : ℚ :=
  if x < 5 then 0 else if x ≤ 20 then 1 else if x < 35 then (35 - x) / 15 else 0

/-- Green term "medium": `fuzz.trimf(universe, [20, 40, 60])`. -/
def muGreenMed (x : ℚ) : ℚ :=
  if x ≤ 20 then 0
  else if x ≤ 40 then (x - 20) / 20
  else if x < 60 then (60 - x) / 20
  else 0

/-- Green term "long": `fuzz.trapmf(universe, [45, 60, 90, 90])`. -/
def muGreenLong (x : ℚ) : ℚ :=
  if x ≤ 45 then 0 else if x < 60 then (x - 45) / 15 else 1

/-- Source `np.clip(x, lo, hi)` for `lo ≤ hi`. -/
def clip (x lo hi : ℚ) : ℚ := min (max x lo) hi

/-- Activation of consequent "short": the single rule
`density[low] & wait[short] → green[short]`, AND = `min`. -/
def actShort (d w : ℚ) : ℚ := min (muDensityLow d) (muWaitShort w)

/-- Activation of consequent "medium": `max` over the four rules
`low&medium`, `low&long`, `medium&short`, `medium&medium`. -/
def actMedium (d w : ℚ) : ℚ :=
  max (min (muDensityLow d) (muWaitMed w))
    (max (min (muDensityLow d) (muWaitLong w))
      (max (min (muDensityMed d) (muWaitShort w))
        (min (muDensityMed d) (muWaitMed w))))

/-- Activation of consequent "long": `max` over the four rules
`medium&long`, `high&short`, `high&medium`, `high&long`. -/
def actLong (d w : ℚ) : ℚ :=
  max (min (muDensityMed d) (muWaitLong w))
    (max (min (muDensityHigh d) (muWaitShort w))
      (max (min (muDensityHigh d) (muWaitMed w))
        (min (muDensityHigh d) (muWaitLong w))))

/-- Aggregated output membership: pointwise `max` of the consequent curves
clipped (`min`) at their activations, evaluated at green-universe point `g`. -/
def aggCurve (d w : ℚ) (g : ℚ) : ℚ :=
  max (min (actShort d w) (muGreenShort g))
    (max (min (actMedium d w) (muGreenMed g))
      (min (actLong d w) (muGreenLong g)))

/-- Moment contribution of the slab `[5+i, 6+i]` of the piecewise-linear
curve through the samples of `f`: skfuzzy's `moment * area` in all of its
four case splits equals this polynomial. -/
def segNum (f : ℚ → ℚ) (i : ℕ) : ℚ :=
  (5 + i) * (f (5 + i) + f (6 + i)) / 2 + (f (5 + i) + 2 * f (6 + i)) / 6

/-- Area contribution of the slab `[5+i, 6+i]`. -/
def segArea (f : ℚ → ℚ) (i : ℕ) : ℚ := (f (5 + i) + f (6 + i)) / 2

/-- Total moment of the sampled curve over the green universe `5..90`. -/
def defuzzNum (f : ℚ → ℚ) : ℚ := ∑ i ∈ Finset.range 85, segNum f i

/-- Total area of the sampled curve over the green universe `5..90`. -/
def defuzzDen (f : ℚ → ℚ) : ℚ := ∑ i ∈ Finset.range 85, segArea f i

/-- Source `mfx.sum()` over the sampled green universe — the quantity skfuzzy's
`defuzz` tests against zero before computing the centroid. -/
def pointSum (f : ℚ → ℚ) : ℚ := ∑ i ∈ Finset.range 86, f (5 + i)

/-- Centroid defuzzification of a sampled output curve, as performed by
`skfuzzy.defuzz(..., 'centroid')` inside `ControlSystemSimulation.compute`:
if the sampled curve sums to zero it raises
(`assert not zero_truth_degree`), which surfaces as an exception at the
controller boundary; otherwise it returns moment / area. -/
def defuzzCentroid (f : ℚ → ℚ) : Except String ℚ :=
  if pointSum f = 0 then .error "Total area is zero in defuzzification!"
  else .ok (defuzzNum f / defuzzDen f)

/-- The inference pipeline of `compute_green_time`'s `try` block after input
clamping: fuzzify, evaluate the 9 rules, aggregate, defuzzify. -/
def inferRaw (d w : ℚ) : Except String ℚ := defuzzCentroid (aggCurve d w)

/-- Round-half-to-even to an integer (Python's `round`). -/
def roundHalfEven (q : ℚ) : ℤ :=
  if q - ⌊q⌋ < 1 / 2 then ⌊q⌋
  else if 1 / 2 < q - ⌊q⌋ then ⌊q⌋ + 1
  else if ⌊q⌋ % 2 = 0 then ⌊q⌋ else ⌊q⌋ + 1

/-- Python `round(x, 1)`. -/
def round1 (x : ℚ) : ℚ := (roundHalfEven (10 * x) : ℚ) / 10

/-- Source `TrafficLightController.MIN_GREEN_TIME`. -/
def MIN_GREEN_TIME : ℚ := 15

/-- Source `TrafficLightController.MAX_GREEN_TIME`. -/
def MAX_GREEN_TIME : ℚ := 60

/-- Source `TrafficLightController.compute_green_time`, generalized over the
inference engine so that the exception boundary can be stated for an
arbitrary failing internal computation.  Returns the value together with
the diagnostic printed on the fallback path (the only place `light_id`
is consulted). -/
def computeGreenTimeFull (infer : ℚ → ℚ → Except String ℚ) (lightId : String)
    (density waitTime : ℚ) : ℚ × String :=
  match infer (clip density 0 100) (clip waitTime 0 120) with
  | .ok raw => (round1 (clip raw MIN_GREEN_TIME MAX_GREEN_TIME), "")
  | .error e => (30, "Fuzzy computation error for " ++ lightId ++ ": " ++ e)

/-- Source `compute_green_time` of a controller instance: the crisp result. -/
def computeGreenTime (density waitTime : ℚ) : ℚ :=
  (computeGreenTimeFull inferRaw "light" density waitTime).1

/-! ### Elementary bounds on the membership functions -/

theorem muDensityLow_nonneg (x : ℚ) : 0 ≤ muDensityLow x := by
  unfold muDensityLow; split_ifs <;> [norm_num; linarith; norm_num]

theorem muDensityLow_le_one (x : ℚ) : muDensityLow x ≤ 1 := by
  unfold muDensityLow; split_ifs <;> [norm_num; linarith; norm_num]

theorem muDensityMed_nonneg (x : ℚ) : 0 ≤ muDensityMed x := by
  unfold muDensityMed; split_ifs <;> [norm_num; linarith; linarith; norm_num]

theorem muDensityMed_le_one (x : ℚ) : muDensityMed x ≤ 1 := by
  unfold muDensityMed; split_ifs <;> [norm_num; linarith; linarith; norm_num]

theorem muDensityHigh_nonneg (x : ℚ) : 0 ≤ muDensityHigh x := by
  unfold muDensityHigh; split_ifs <;> [norm_num; linarith; norm_num]

theorem muDensityHigh_le_one (x : ℚ) : muDensityHigh x ≤ 1 := by
  unfold muDensityHigh; split_ifs <;> [norm_num; linarith; norm_num]

theorem muWaitShort_nonneg (x : ℚ) : 0 ≤ muWaitShort x := by
  unfold muWaitShort; split_ifs <;> [norm_num; linarith; norm_num]

theorem muWaitShort_le_one (x : ℚ) : muWaitShort x ≤ 1 := by
  unfold muWaitShort; split_ifs <;> [norm_num; linarith; norm_num]

theorem muWaitMed_nonneg (x : ℚ) : 0 ≤ muWaitMed x := by
  unfold muWaitMed; split_ifs <;> [norm_num; linarith; linarith; norm_num]

theorem muWaitMed_le_one (x : ℚ) : muWaitMed x ≤ 1 := by
  unfold muWaitMed; split_ifs <;> [norm_num; linarith; linarith; norm_num]

theorem muWaitLong_nonneg (x : ℚ) : 0 ≤ muWaitLong x := by
  unfold muWaitLong; split_ifs <;> [norm_num; linarith; norm_num]

theorem muWaitLong_le_one (x : ℚ) : muWaitLong x ≤ 1 := by
  unfold muWaitLong; split_ifs <;> [norm_num; linarith; norm_num]

theorem muGreenShort_nonneg (x : ℚ) : 0 ≤ muGreenShort x := by
  unfold muGreenShort; split_ifs <;> [norm_num; norm_num; linarith; norm_num]

theorem muGreenShort_le_one (x : ℚ) : muGreenShort x ≤ 1 := by
  unfold muGreenShort; split_ifs <;> [norm_num; norm_num; linarith; norm_num]

theorem muGreenMed_nonneg (x : ℚ) : 0 ≤ muGreenMed x := by
  unfold muGreenMed; split_ifs <;> [norm_num; linarith; linarith; norm_num]

theorem muGreenMed_le_one (x : ℚ) : muGreenMed x ≤ 1 := by
  unfold muGreenMed; split_ifs <;> [norm_num; linarith; linarith; norm_num]

theorem muGreenLong_nonneg (x : ℚ) : 0 ≤ muGreenLong x := by
  unfold muGreenLong; split_ifs <;> [norm_num; linarith; norm_num]

theorem muGreenLong_le_one (x : ℚ) : muGreenLong x ≤ 1 := by
  unfold muGreenLong; split_ifs <;> [norm_num; linarith; norm_num]

/-! ### Rounding and clipping lemmas -/

theorem roundHalfEven_le {q : ℚ} {m : ℤ} (h : q ≤ m) : roundHalfEven q ≤ m := by
  have hn : ⌊q⌋ ≤ m := by
    have h2 := Int.floor_le_floor h
    rwa [Int.floor_intCast] at h2
  have hfl : (⌊q⌋ : ℚ) ≤ q := Int.floor_le q
  unfold roundHalfEven
  split_ifs with h1 h2 h3
  · exact hn
  · have hq : (⌊q⌋ : ℚ) < (m : ℚ) := by linarith
    have hq2 : ⌊q⌋ < m := by exact_mod_cast hq
    omega
  · exact hn
  · have htie : q - ⌊q⌋ = 1 / 2 := le_antisymm (not_lt.mp h2) (not_lt.mp h1)
    have hq : (⌊q⌋ : ℚ) < (m : ℚ) := by linarith
    have hq2 : ⌊q⌋ < m := by exact_mod_cast hq
    omega

theorem roundHalfEven_ge {q : ℚ} {m : ℤ} (h : (m : ℚ) ≤ q) : m ≤ roundHalfEven q := by
  have hn : m ≤ ⌊q⌋ := Int.le_floor.mpr h
  unfold roundHalfEven
  split_ifs <;> omega

theorem round1_le_int {x : ℚ} {B : ℤ} (h : x ≤ (B : ℚ)) : round1 x ≤ (B : ℚ) := by
  have h10 : 10 * x ≤ ((10 * B : ℤ) : ℚ) := by push_cast; linarith
  have hr := roundHalfEven_le h10
  have hc : ((roundHalfEven (10 * x) : ℤ) : ℚ) ≤ ((10 * B : ℤ) : ℚ) := by exact_mod_cast hr
  unfold round1
  push_cast at hc ⊢
  linarith

theorem round1_ge_int {x : ℚ} {B : ℤ} (h : (B : ℚ) ≤ x) : (B : ℚ) ≤ round1 x := by
  have h10 : ((10 * B : ℤ) : ℚ) ≤ 10 * x := by push_cast; linarith
  have hr := roundHalfEven_ge h10
  have hc : ((10 * B : ℤ) : ℚ) ≤ ((roundHalfEven (10 * x) : ℤ) : ℚ) := by exact_mod_cast hr
  unfold round1
  push_cast at hc ⊢
  linarith

theorem round1_intCast (m : ℤ) : round1 (m : ℚ) = (m : ℚ) :=
  le_antisymm (round1_le_int le_rfl) (round1_ge_int le_rfl)

theorem clip_le_hi (x lo hi : ℚ) : clip x lo hi ≤ hi := min_le_right _ _

theorem le_clip_lo (x : ℚ) {lo hi : ℚ} (h : lo ≤ hi) : lo ≤ clip x lo hi :=
  le_min (le_max_right x lo) h

theorem clip_eq_self {x lo hi : ℚ} (h1 : lo ≤ x) (h2 : x ≤ hi) : clip x lo hi = x := by
  unfold clip; rw [max_eq_left h1, min_eq_left h2]

theorem clip_eq_hi {x lo hi : ℚ} (h : hi ≤ x) (hlh : lo ≤ hi) : clip x lo hi = hi := by
  unfold clip
  rw [max_eq_left (hlh.trans h), min_eq_right h]

theorem clip_le_of_le {x lo hi c : ℚ} (hx : x ≤ c) (hlo : lo ≤ c) : clip x lo hi ≤ c :=
  (min_le_left _ _).trans (max_le hx hlo)

theorem le_clip_of_le {x lo hi c : ℚ} (hx : c ≤ x) (hhi : c ≤ hi) : c ≤ clip x lo hi :=
  le_min (hx.trans (le_max_left x lo)) hhi

/-- The output of `compute_green_time` always lies in `[15, 60]`: the `try`
branch clamps to the bounds before rounding, the `except` branch returns 30. -/
theorem computeGreenTime_range (d w : ℚ) :
    15 ≤ computeGreenTime d w ∧ computeGreenTime d w ≤ 60 := by
  unfold computeGreenTime computeGreenTimeFull
  cases hres : inferRaw (clip d 0 100) (clip w 0 120) with
  | error e => simp only [hres]; norm_num
  | ok raw =>
      simp only [hres]
      unfold MIN_GREEN_TIME MAX_GREEN_TIME
      constructor
      · have hlo : (15 : ℚ) ≤ clip raw 15 60 := le_clip_lo raw (by norm_num)
        have := round1_ge_int (B := 15) (by exact_mod_cast hlo)
        norm_num at this
        exact this
      · have hhi : clip raw 15 60 ≤ (60 : ℚ) := clip_le_hi raw 15 60
        have := round1_le_int (B := 60) (by exact_mod_cast hhi)
        norm_num at this
        exact this

/-- C1: for every input pair — including values outside `[0,100] × [0,120]`,
which are clamped first — `compute_green_time` returns a value between
`MIN_GREEN_TIME = 15` and `MAX_GREEN_TIME = 60`, on the normal inference
path and on the exception-fallback path alike. -/
theorem c1_output_always_in_green_bounds (density waitTime : ℚ) :
    MIN_GREEN_TIME ≤ computeGreenTime density waitTime ∧
      computeGreenTime density waitTime ≤ MAX_GREEN_TIME := by
  have h := computeGreenTime_range density waitTime
  unfold MIN_GREEN_TIME MAX_GREEN_TIME
  exact h

/-- C8: the `try/except` of `compute_green_time` converts any internal
failure into the fixed value 30.0 instead of propagating: for an arbitrary
inference engine, an error outcome yields exactly 30, and in every case the
call returns either 30 or the rounded clamp of a successfully inferred raw
value — it can never abort the caller. -/
theorem c8_internal_failure_returns_30 :
    (∀ (infer : ℚ → ℚ → Except String ℚ) (lightId : String) (d w : ℚ) (e : String),
        infer (clip d 0 100) (clip w 0 120) = .error e →
          (computeGreenTimeFull infer lightId d w).1 = 30) ∧
      (∀ (infer : ℚ → ℚ → Except String ℚ) (lightId : String) (d w : ℚ),
        (computeGreenTimeFull infer lightId d w).1 = 30 ∨
          ∃ raw, infer (clip d 0 100) (clip w 0 120) = .ok raw ∧
            (computeGreenTimeFull infer lightId d w).1 =
              round1 (clip raw MIN_GREEN_TIME MAX_GREEN_TIME)) := by
  constructor
  · intro infer lightId d w e he
    unfold computeGreenTimeFull
    rw [he]
  · intro infer lightId d w
    cases hres : infer (clip d 0 100) (clip w 0 120) with
    | error e =>
        left
        unfold computeGreenTimeFull
        rw [hres]
    | ok raw =>
        right
        refine ⟨raw, rfl, ?_⟩
        unfold computeGreenTimeFull
        rw [hres]

/-- C8 witness: a concrete always-failing internal computation is caught and
mapped to 30. -/
theorem c8_internal_failure_returns_30_witness :
    (computeGreenTimeFull (fun _ _ => Except.error "numerical degeneracy")
        "horizontal" 50 50).1 = 30 :=
  c8_internal_failure_returns_30.1 (fun _ _ => Except.error "numerical degeneracy")
    "horizontal" 50 50 "numerical degeneracy" rfl

/-- C9: the `light_id` stored by `TrafficLightController.__init__` influences
only the diagnostic string of the fallback path, never the returned number:
controllers constructed with different ids implement the same
input-to-output function, so the horizontal and vertical controllers are
semantically identical. -/
theorem c9_light_id_only_affects_diagnostics (id1 id2 : String) (d w : ℚ) :
    (computeGreenTimeFull inferRaw id1 d w).1 =
      (computeGreenTimeFull inferRaw id2 d w).1 := by
  unfold computeGreenTimeFull
  cases hres : inferRaw (clip d 0 100) (clip w 0 120) <;> rfl

/-- C3 counterexample: when the aggregated output curve sums to zero over
the green universe, the code returns the exception fallback 30.0, not the
midpoint 47.5 of the green universe `[5, 90]` claimed by the spec. -/
theorem c3_counterexample_zero_curve_gives_30_not_midpoint :
    pointSum (fun _ => 0) = 0 ∧
      (computeGreenTimeFull (fun _ _ => defuzzCentroid (fun _ => 0))
          "horizontal" 50 50).1 = 30 ∧
      (30 : ℚ) ≠ (5 + 90) / 2 := by
  refine ⟨?_, ?_, by norm_num⟩
  · unfold pointSum
    simp
  · have h0 : pointSum (fun _ : ℚ => (0 : ℚ)) = 0 := by
      unfold pointSum
      simp
    simp [computeGreenTimeFull, defuzzCentroid, h0]

/-- C3 amended: if the aggregated output curve sums to zero over the green
universe, `skfuzzy.defuzz` raises ("Total area is zero in
defuzzification!") and the controller boundary converts that into the fixed
exception fallback 30.0 — not into the 47.5 midpoint of the green universe.
(With this rule base and clamped inputs the zero-sum situation never
arises; it is reachable only at the defuzzification component itself.) -/
theorem c3_zero_sum_curve_yields_exception_fallback (f : ℚ → ℚ)
    (lightId : String) (d w : ℚ) (h : pointSum f = 0) :
    (computeGreenTimeFull (fun _ _ => defuzzCentroid f) lightId d w).1 = 30 := by
  simp [computeGreenTimeFull, defuzzCentroid, h]

/-- C3 witness: the all-zero aggregated curve satisfies the zero-sum
hypothesis and produces the fallback 30. -/
theorem c3_zero_sum_curve_witness :
    pointSum (fun _ => 0) = (0 : ℚ) ∧
      (computeGreenTimeFull (fun _ _ => defuzzCentroid (fun _ => 0))
          "vertical" 10 20).1 = 30 :=
  ⟨by unfold pointSum; simp,
    c3_zero_sum_curve_yields_exception_fallback (fun _ => 0) "vertical" 10 20
      (by unfold pointSum; simp)⟩

/-! ### Regrouping the centroid functional per grid point

`defuzzNum f - c * defuzzDen f` is a linear functional of the samples
`f 5, …, f 90`; `pointCoef c i` is the coefficient of `f (5+i)` after
regrouping the slab sums (Abel resummation). -/

/-- Coefficient of the sample `f (5+i)` in `defuzzNum f - c * defuzzDen f`. -/
def pointCoef (c : ℚ) (i : ℕ) : ℚ :=
  if i = 0 then (5 - c) / 2 + 1 / 6
  else if i = 85 then (89 - c) / 2 + 1 / 3
  else (5 + i) - c

set_option maxHeartbeats 2000000 in
theorem defuzz_resum (f : ℚ → ℚ) (c : ℚ) :
    defuzzNum f - c * defuzzDen f =
      ∑ i ∈ Finset.range 86, pointCoef c i * f (5 + i) := by
  unfold defuzzNum defuzzDen segNum segArea pointCoef
  simp only [Finset.sum_range_succ, Finset.sum_range_zero]
  norm_num
  ring

theorem defuzzDen_pos_of_point {f : ℚ → ℚ} (hnn : ∀ g : ℚ, 0 ≤ f g)
    {i0 : ℕ} (hi0 : i0 < 85) (hpos : 0 < f (5 + i0)) : 0 < defuzzDen f := by
  unfold defuzzDen
  have hle : segArea f i0 ≤ ∑ i ∈ Finset.range 85, segArea f i := by
    apply Finset.single_le_sum (fun i _ => ?_) (Finset.mem_range.mpr hi0)
    unfold segArea
    have := hnn (5 + i)
    have := hnn (6 + i)
    linarith
  have hval : 0 < segArea f i0 := by
    unfold segArea
    have := hnn (6 + i0)
    linarith
  linarith

theorem pointSum_pos_of_point {f : ℚ → ℚ} (hnn : ∀ g : ℚ, 0 ≤ f g)
    {i0 : ℕ} (hi0 : i0 < 86) (hpos : 0 < f (5 + i0)) : 0 < pointSum f := by
  unfold pointSum
  have hle : f (5 + i0) ≤ ∑ i ∈ Finset.range 86, f (5 + i) :=
    Finset.single_le_sum (f := fun i : ℕ => f (5 + (i : ℚ)))
      (fun i _ => hnn (5 + i)) (Finset.mem_range.mpr hi0)
  linarith

/-- A nonnegative curve supported left of 35 has its point-regrouped
`c = 40` functional nonpositive: every grid point carrying mass has a
negative coefficient. -/
theorem pointFunctional40_nonpos_of_left_support {h : ℚ → ℚ}
    (hnn : ∀ g : ℚ, 0 ≤ h g) (hz : ∀ g : ℚ, 35 ≤ g → h g = 0) :
    ∑ i ∈ Finset.range 86, pointCoef 40 i * h (5 + i) ≤ 0 := by
  apply Finset.sum_nonpos
  intro i hi
  have hi86 : i < 86 := Finset.mem_range.mp hi
  by_cases h30 : 30 ≤ i
  · have hzero : h (5 + i) = 0 := by
      apply hz
      have : (30 : ℚ) ≤ i := by exact_mod_cast h30
      linarith
    rw [hzero, mul_zero]
  · have hpc : pointCoef 40 i ≤ 0 := by
      unfold pointCoef
      split_ifs with h0 h85
      · norm_num
      · omega
      · have : (i : ℚ) ≤ 29 := by
          have : i ≤ 29 := by omega
          exact_mod_cast this
        linarith
    calc pointCoef 40 i * h (5 + i) ≤ 0 * h (5 + i) :=
          mul_le_mul_of_nonneg_right hpc (hnn (5 + i))
      _ = 0 := by ring

/-- A nonnegative curve supported right of 45 has its point-regrouped
`c = 40` functional nonnegative. -/
theorem pointFunctional40_nonneg_of_right_support {h : ℚ → ℚ}
    (hnn : ∀ g : ℚ, 0 ≤ h g) (hz : ∀ g : ℚ, g ≤ 45 → h g = 0) :
    0 ≤ ∑ i ∈ Finset.range 86, pointCoef 40 i * h (5 + i) := by
  apply Finset.sum_nonneg
  intro i hi
  have hi86 : i < 86 := Finset.mem_range.mp hi
  by_cases h41 : i ≤ 40
  · have hzero : h (5 + i) = 0 := by
      apply hz
      have : (i : ℚ) ≤ 40 := by exact_mod_cast h41
      linarith
    rw [hzero, mul_zero]
  · have hpc : 0 ≤ pointCoef 40 i := by
      unfold pointCoef
      split_ifs with h0 h85
      · omega
      · norm_num
      · have : (41 : ℚ) ≤ i := by
          have : 41 ≤ i := by omega
          exact_mod_cast this
        linarith
    exact mul_nonneg hpc (hnn (5 + i))

set_option maxHeartbeats 2000000 in
/-- The `min α`-clipped "medium" output curve is symmetric about 40, so its
point-regrouped `c = 40` functional vanishes: its centroid is exactly 40. -/
theorem clippedMed_balanced (α : ℚ) (h0 : 0 ≤ α) :
    ∑ i ∈ Finset.range 86, pointCoef 40 i * min α (muGreenMed (5 + i)) = 0 := by
  simp only [Finset.sum_range_succ, Finset.sum_range_zero]
  norm_num [pointCoef, muGreenMed]
  simp only [min_eq_right h0]
  ring

set_option maxHeartbeats 2000000 in
/-- The `min α`-clipped "long" output curve has its point-regrouped `c = 60`
functional nonnegative: its centroid is at least 60. -/
theorem clippedLong_ge_60 (α : ℚ) (h0 : 0 ≤ α) (h1 : α ≤ 1) :
    0 ≤ ∑ i ∈ Finset.range 86, pointCoef 60 i * min α (muGreenLong (5 + i)) := by
  simp only [Finset.sum_range_succ, Finset.sum_range_zero]
  norm_num [pointCoef, muGreenLong]
  simp only [min_eq_right h0, min_eq_left h1]
  have m1 : min α (1 / 15 : ℚ) ≤ α := min_le_left _ _
  have m2 : min α (2 / 15 : ℚ) ≤ α := min_le_left _ _
  have m3 : min α (1 / 5 : ℚ) ≤ α := min_le_left _ _
  have m4 : min α (4 / 15 : ℚ) ≤ α := min_le_left _ _
  have m5 : min α (1 / 3 : ℚ) ≤ α := min_le_left _ _
  have m6 : min α (2 / 5 : ℚ) ≤ α := min_le_left _ _
  have m7 : min α (7 / 15 : ℚ) ≤ α := min_le_left _ _
  have m8 : min α (8 / 15 : ℚ) ≤ α := min_le_left _ _
  have m9 : min α (3 / 5 : ℚ) ≤ α := min_le_left _ _
  have m10 : min α (2 / 3 : ℚ) ≤ α := min_le_left _ _
  have m11 : min α (11 / 15 : ℚ) ≤ α := min_le_left _ _
  have m12 : min α (4 / 5 : ℚ) ≤ α := min_le_left _ _
  have m13 : min α (13 / 15 : ℚ) ≤ α := min_le_left _ _
  have m14 : min α (14 / 15 : ℚ) ≤ α := min_le_left _ _
  linarith

/-! ### Membership values at the inputs singled out by the spec -/

theorem muWaitShort_at_25 : muWaitShort 25 = 1 := by norm_num [muWaitShort]

theorem muWaitMed_at_25 : muWaitMed 25 = 0 := by norm_num [muWaitMed]

theorem muWaitLong_at_25 : muWaitLong 25 = 0 := by norm_num [muWaitLong]

theorem muWaitShort_at_95 : muWaitShort 95 = 0 := by norm_num [muWaitShort]

theorem muWaitMed_at_95 : muWaitMed 95 = 0 := by norm_num [muWaitMed]

theorem muWaitLong_at_95 : muWaitLong 95 = 1 := by norm_num [muWaitLong]

theorem muDensityLow_at_85 : muDensityLow 85 = 0 := by norm_num [muDensityLow]

theorem muDensityMed_at_85 : muDensityMed 85 = 0 := by norm_num [muDensityMed]

theorem muDensityHigh_at_85 : muDensityHigh 85 = 1 := by norm_num [muDensityHigh]

theorem muDensityLow_eq_one_of_le {d : ℚ} (h : d ≤ 25) : muDensityLow d = 1 := by
  unfold muDensityLow; rw [if_pos h]

theorem muDensityMed_eq_zero_of_le {d : ℚ} (h : d ≤ 25) : muDensityMed d = 0 := by
  unfold muDensityMed; rw [if_pos h]

theorem muDensityHigh_eq_zero_of_le {d : ℚ} (h : d ≤ 55) : muDensityHigh d = 0 := by
  unfold muDensityHigh; rw [if_pos h]

theorem muDensityLow_eq_zero_of_ge {d : ℚ} (h : 45 ≤ d) : muDensityLow d = 0 := by
  unfold muDensityLow
  rw [if_neg (by linarith), if_neg (by linarith)]

theorem muDensityMed_eq_zero_of_ge {d : ℚ} (h : 75 ≤ d) : muDensityMed d = 0 := by
  unfold muDensityMed
  rw [if_neg (by linarith), if_neg (by linarith), if_neg (by linarith)]

theorem muDensityHigh_eq_one_of_ge {d : ℚ} (h : 75 ≤ d) : muDensityHigh d = 1 := by
  unfold muDensityHigh
  rw [if_neg (by linarith), if_neg (by linarith)]

theorem muDensityLow_pos_of_lt {d : ℚ} (h : d < 45) : 0 < muDensityLow d := by
  rcases le_or_lt d 25 with h1 | h1
  · rw [muDensityLow_eq_one_of_le h1]
    norm_num
  · unfold muDensityLow
    rw [if_neg (not_le.mpr h1), if_pos h]
    linarith

theorem muDensityMed_pos_of_between {d : ℚ} (h1 : 45 ≤ d) (h2 : d ≤ 55) :
    0 < muDensityMed d := by
  unfold muDensityMed
  split_ifs <;> linarith

theorem muGreenShort_eq_zero_of_ge {g : ℚ} (h : 35 ≤ g) : muGreenShort g = 0 := by
  unfold muGreenShort
  rw [if_neg (by linarith), if_neg (by linarith), if_neg (by linarith)]

theorem muGreenLong_eq_zero_of_le {g : ℚ} (h : g ≤ 45) : muGreenLong g = 0 := by
  unfold muGreenLong; rw [if_pos h]

/-- For any fixed wait value, at least one wait term fires with degree
at least 2/5 (the worst case is at the crossing points 42 and 78). -/
theorem waitCoverage (w : ℚ) :
    2 / 5 ≤ max (muWaitShort w) (max (muWaitMed w) (muWaitLong w)) := by
  rcases le_or_lt w 42 with h | h
  · refine le_trans ?_ (le_max_left _ _)
    unfold muWaitShort
    split_ifs <;> [norm_num; linarith; linarith]
  · rcases le_or_lt w 78 with h2 | h2
    · refine le_trans ?_ ((le_max_left _ _).trans (le_max_right _ _))
      unfold muWaitMed
      split_ifs <;> linarith
    · refine le_trans ?_ ((le_max_right _ _).trans (le_max_right _ _))
      unfold muWaitLong
      split_ifs <;> [linarith; linarith; norm_num]

/-! ### Evaluating `compute_green_time` through the inference pipeline -/

/-- For in-range inputs the clamps are the identity and the call reduces to
the defuzzification of the aggregated curve, guarded by the zero-sum test. -/
theorem computeGreenTime_eval (d w : ℚ) (hd0 : 0 ≤ d) (hd1 : d ≤ 100)
    (hw0 : 0 ≤ w) (hw1 : w ≤ 120) :
    computeGreenTime d w =
      if pointSum (aggCurve d w) = 0 then 30
      else round1 (clip (defuzzNum (aggCurve d w) / defuzzDen (aggCurve d w)) 15 60) := by
  unfold computeGreenTime computeGreenTimeFull inferRaw defuzzCentroid
    MIN_GREEN_TIME MAX_GREEN_TIME
  rw [clip_eq_self hd0 hd1, clip_eq_self hw0 hw1]
  split_ifs with h
  · rfl
  · rfl

/-- If the aggregated curve is the long consequent clipped at a positive
level, the centroid lands at or beyond 60 and the clamp returns exactly 60. -/
theorem compute_eq_60_of_long_clip (d w α : ℚ) (hd0 : 0 ≤ d) (hd1 : d ≤ 100)
    (hw0 : 0 ≤ w) (hw1 : w ≤ 120)
    (hagg : aggCurve d w = fun g => min α (muGreenLong g))
    (hα0 : 0 < α) (hα1 : α ≤ 1) : computeGreenTime d w = 60 := by
  rw [computeGreenTime_eval d w hd0 hd1 hw0 hw1, hagg]
  have hnn : ∀ g : ℚ, 0 ≤ min α (muGreenLong g) := fun g =>
    le_min hα0.le (muGreenLong_nonneg g)
  have hpt : 0 < (fun g : ℚ => min α (muGreenLong g)) (5 + (55 : ℕ)) := by
    show 0 < min α (muGreenLong (5 + ((55 : ℕ) : ℚ)))
    have h60 : (5 + ((55 : ℕ) : ℚ)) = 60 := by norm_num
    rw [h60, show muGreenLong 60 = 1 from by norm_num [muGreenLong], min_eq_left hα1]
    exact hα0
  have hps : 0 < pointSum fun g => min α (muGreenLong g) :=
    pointSum_pos_of_point hnn (by norm_num) hpt
  have hden : 0 < defuzzDen fun g => min α (muGreenLong g) :=
    defuzzDen_pos_of_point hnn (by norm_num) hpt
  rw [if_neg hps.ne']
  have hresum : defuzzNum (fun g => min α (muGreenLong g)) -
      60 * defuzzDen (fun g => min α (muGreenLong g)) =
      ∑ i ∈ Finset.range 86, pointCoef 60 i * min α (muGreenLong (5 + i)) := by
    rw [defuzz_resum]
  have hkey := clippedLong_ge_60 α hα0.le hα1
  have hq : (60 : ℚ) ≤ defuzzNum (fun g => min α (muGreenLong g)) /
      defuzzDen (fun g => min α (muGreenLong g)) :=
    (le_div_iff₀ hden).mpr (by linarith)
  rw [clip_eq_hi hq (by norm_num)]
  have h60 := round1_intCast 60
  norm_num at h60
  exact h60

/-- If the aggregated curve is a clipped "short" overlaid on a clipped
"medium", the extra short mass sits left of 35 while the clipped medium is
balanced about 40, so the centroid — and hence the rounded clamp — is at
most 40. -/
theorem compute_le_40_of_short_med (d w L M : ℚ) (hd0 : 0 ≤ d) (hd1 : d ≤ 100)
    (hw0 : 0 ≤ w) (hw1 : w ≤ 120)
    (hL0 : 0 ≤ L) (hM0 : 0 ≤ M) (hpos : 0 < L ∨ 0 < M)
    (hagg : aggCurve d w =
      fun g => max (min L (muGreenShort g)) (min M (muGreenMed g))) :
    computeGreenTime d w ≤ 40 := by
  rw [computeGreenTime_eval d w hd0 hd1 hw0 hw1, hagg]
  set f : ℚ → ℚ := fun g => max (min L (muGreenShort g)) (min M (muGreenMed g)) with hf
  have hnn : ∀ g : ℚ, 0 ≤ f g := fun g =>
    le_trans (le_min hM0 (muGreenMed_nonneg g)) (le_max_right _ _)
  obtain ⟨i0, hi85, hptpos⟩ : ∃ i0 : ℕ, i0 < 85 ∧ 0 < f (5 + (i0 : ℚ)) := by
    rcases hpos with hL | hM
    · refine ⟨0, by norm_num, ?_⟩
      show 0 < max (min L (muGreenShort (5 + ((0 : ℕ) : ℚ))))
        (min M (muGreenMed (5 + ((0 : ℕ) : ℚ))))
      have h5 : (5 + ((0 : ℕ) : ℚ)) = 5 := by norm_num
      rw [h5, show muGreenShort 5 = 1 from by norm_num [muGreenShort]]
      exact lt_of_lt_of_le (lt_min hL one_pos) (le_max_left _ _)
    · refine ⟨35, by norm_num, ?_⟩
      show 0 < max (min L (muGreenShort (5 + ((35 : ℕ) : ℚ))))
        (min M (muGreenMed (5 + ((35 : ℕ) : ℚ))))
      have h40 : (5 + ((35 : ℕ) : ℚ)) = 40 := by norm_num
      rw [h40, show muGreenMed 40 = 1 from by norm_num [muGreenMed]]
      exact lt_of_lt_of_le (lt_min hM one_pos) (le_max_right _ _)
  have hps : 0 < pointSum f :=
    pointSum_pos_of_point hnn (hi85.trans (by norm_num)) hptpos
  have hden : 0 < defuzzDen f := defuzzDen_pos_of_point hnn hi85 hptpos
  rw [if_neg hps.ne']
  have hsplit : ∀ i ∈ Finset.range 86, pointCoef 40 i * f (5 + i) =
      pointCoef 40 i * min M (muGreenMed (5 + i)) +
        pointCoef 40 i * (f (5 + i) - min M (muGreenMed (5 + i))) := by
    intro i _
    ring
  have hbal := clippedMed_balanced M hM0
  have hh0 : ∀ g : ℚ, 0 ≤ f g - min M (muGreenMed g) := fun g =>
    sub_nonneg.mpr (le_max_right _ _)
  have hhz : ∀ g : ℚ, 35 ≤ g → f g - min M (muGreenMed g) = 0 := by
    intro g hg
    show max (min L (muGreenShort g)) (min M (muGreenMed g)) -
      min M (muGreenMed g) = 0
    rw [muGreenShort_eq_zero_of_ge hg, min_eq_right hL0,
      max_eq_right (le_min hM0 (muGreenMed_nonneg g))]
    ring
  have hsupp := pointFunctional40_nonpos_of_left_support hh0 hhz
  have hsum : ∑ i ∈ Finset.range 86, pointCoef 40 i * f (5 + i) ≤ 0 := by
    rw [Finset.sum_congr rfl hsplit, Finset.sum_add_distrib]
    have h2 : ∑ i ∈ Finset.range 86,
        pointCoef 40 i * (f (5 + i) - min M (muGreenMed (5 + i))) ≤ 0 := hsupp
    linarith [hbal, h2]
  have hresum := defuzz_resum f 40
  have hq : defuzzNum f / defuzzDen f ≤ 40 := (div_le_iff₀ hden).mpr (by linarith)
  have hclip : clip (defuzzNum f / defuzzDen f) 15 60 ≤ 40 :=
    clip_le_of_le hq (by norm_num)
  have hfin := round1_le_int (B := 40) (by exact_mod_cast hclip)
  norm_num at hfin
  exact hfin

/-- If the aggregated curve is a clipped "long" overlaid on a clipped
"medium", the extra long mass sits right of 45 while the clipped medium is
balanced about 40, so the centroid — and hence the rounded clamp — is at
least 40. -/
theorem compute_ge_40_of_med_long (d w L M : ℚ) (hd0 : 0 ≤ d) (hd1 : d ≤ 100)
    (hw0 : 0 ≤ w) (hw1 : w ≤ 120)
    (hL0 : 0 ≤ L) (hM0 : 0 ≤ M) (hpos : 0 < L ∨ 0 < M)
    (hagg : aggCurve d w =
      fun g => max (min L (muGreenMed g)) (min M (muGreenLong g))) :
    40 ≤ computeGreenTime d w := by
  rw [computeGreenTime_eval d w hd0 hd1 hw0 hw1, hagg]
  set f : ℚ → ℚ := fun g => max (min L (muGreenMed g)) (min M (muGreenLong g)) with hf
  have hnn : ∀ g : ℚ, 0 ≤ f g := fun g =>
    le_trans (le_min hM0 (muGreenLong_nonneg g)) (le_max_right _ _)
  obtain ⟨i0, hi85, hptpos⟩ : ∃ i0 : ℕ, i0 < 85 ∧ 0 < f (5 + (i0 : ℚ)) := by
    rcases hpos with hL | hM
    · refine ⟨35, by norm_num, ?_⟩
      show 0 < max (min L (muGreenMed (5 + ((35 : ℕ) : ℚ))))
        (min M (muGreenLong (5 + ((35 : ℕ) : ℚ))))
      have h40 : (5 + ((35 : ℕ) : ℚ)) = 40 := by norm_num
      rw [h40, show muGreenMed 40 = 1 from by norm_num [muGreenMed]]
      exact lt_of_lt_of_le (lt_min hL one_pos) (le_max_left _ _)
    · refine ⟨55, by norm_num, ?_⟩
      show 0 < max (min L (muGreenMed (5 + ((55 : ℕ) : ℚ))))
        (min M (muGreenLong (5 + ((55 : ℕ) : ℚ))))
      have h60 : (5 + ((55 : ℕ) : ℚ)) = 60 := by norm_num
      rw [h60, show muGreenLong 60 = 1 from by norm_num [muGreenLong]]
      exact lt_of_lt_of_le (lt_min hM one_pos) (le_max_right _ _)
  have hps : 0 < pointSum f :=
    pointSum_pos_of_point hnn (hi85.trans (by norm_num)) hptpos
  have hden : 0 < defuzzDen f := defuzzDen_pos_of_point hnn hi85 hptpos
  rw [if_neg hps.ne']
  have hsplit : ∀ i ∈ Finset.range 86, pointCoef 40 i * f (5 + i) =
      pointCoef 40 i * min L (muGreenMed (5 + i)) +
        pointCoef 40 i * (f (5 + i) - min L (muGreenMed (5 + i))) := by
    intro i _
    ring
  have hbal := clippedMed_balanced L hL0
  have hh0 : ∀ g : ℚ, 0 ≤ f g - min L (muGreenMed g) := fun g =>
    sub_nonneg.mpr (le_max_left _ _)
  have hhz : ∀ g : ℚ, g ≤ 45 → f g - min L (muGreenMed g) = 0 := by
    intro g hg
    show max (min L (muGreenMed g)) (min M (muGreenLong g)) -
      min L (muGreenMed g) = 0
    rw [muGreenLong_eq_zero_of_le hg, min_eq_right hM0,
      max_eq_left (le_min hL0 (muGreenMed_nonneg g))]
    ring
  have hsupp := pointFunctional40_nonneg_of_right_support hh0 hhz
  have hsum : 0 ≤ ∑ i ∈ Finset.range 86, pointCoef 40 i * f (5 + i) := by
    rw [Finset.sum_congr rfl hsplit, Finset.sum_add_distrib]
    have h2 : 0 ≤ ∑ i ∈ Finset.range 86,
        pointCoef 40 i * (f (5 + i) - min L (muGreenMed (5 + i))) := hsupp
    linarith [hbal, h2]
  have hresum := defuzz_resum f 40
  have hq : (40 : ℚ) ≤ defuzzNum f / defuzzDen f :=
    (le_div_iff₀ hden).mpr (by linarith)
  have hclip : (40 : ℚ) ≤ clip (defuzzNum f / defuzzDen f) 15 60 :=
    le_clip_of_le hq (by norm_num)
  have hfin := round1_ge_int (B := 40) (by exact_mod_cast hclip)
  norm_num at hfin
  exact hfin

theorem max_zero_zero (x : ℚ) (h : 0 ≤ x) : max 0 (max 0 x) = x := by
  rw [max_eq_right (le_max_left 0 x), max_eq_right h]

/-! ### The aggregated curve at the inputs compared by the spec -/

/-- At density 85 only the "high" rules fire (at the full wait coverage
level), so the aggregate is the clipped long consequent. -/
theorem agg_at_85 (w : ℚ) :
    aggCurve 85 w =
      fun g => min (max (muWaitShort w) (max (muWaitMed w) (muWaitLong w)))
        (muGreenLong g) := by
  funext g
  unfold aggCurve
  have hS : actShort 85 w = 0 := by
    unfold actShort
    rw [muDensityLow_at_85, min_eq_left (muWaitShort_nonneg w)]
  have hM : actMedium 85 w = 0 := by
    unfold actMedium
    rw [muDensityLow_at_85, muDensityMed_at_85]
    simp only [min_eq_left (muWaitMed_nonneg w), min_eq_left (muWaitLong_nonneg w),
      min_eq_left (muWaitShort_nonneg w)]
    norm_num
  have hL : actLong 85 w = max (muWaitShort w) (max (muWaitMed w) (muWaitLong w)) := by
    unfold actLong
    rw [muDensityMed_at_85, muDensityHigh_at_85]
    simp only [min_eq_left (muWaitLong_nonneg w), min_eq_right (muWaitShort_le_one w),
      min_eq_right (muWaitMed_le_one w), min_eq_right (muWaitLong_le_one w)]
    exact max_eq_right (le_trans (muWaitShort_nonneg w) (le_max_left _ _))
  rw [hS, hM, hL]
  simp only [min_eq_left (muGreenShort_nonneg g), min_eq_left (muGreenMed_nonneg g)]
  exact max_zero_zero _ (le_min (le_trans (muWaitShort_nonneg w) (le_max_left _ _))
    (muGreenLong_nonneg g))

/-- Low density, short wait: only `low&short → short` fires (fully). -/
theorem agg_caseA_25 {d : ℚ} (h : d ≤ 25) :
    aggCurve d 25 =
      fun g => max (min 1 (muGreenShort g)) (min 0 (muGreenMed g)) := by
  funext g
  unfold aggCurve actShort actMedium actLong
  rw [muDensityLow_eq_one_of_le h, muDensityMed_eq_zero_of_le h,
    muDensityHigh_eq_zero_of_le (h.trans (by norm_num)),
    muWaitShort_at_25, muWaitMed_at_25, muWaitLong_at_25]
  norm_num
  simp only [min_eq_left (muGreenMed_nonneg g), min_eq_left (muGreenLong_nonneg g)]
  norm_num

/-- Low density, long wait: only `low&long → medium` fires (fully). -/
theorem agg_caseA_95 {d : ℚ} (h : d ≤ 25) :
    aggCurve d 95 =
      fun g => max (min 1 (muGreenMed g)) (min 0 (muGreenLong g)) := by
  funext g
  unfold aggCurve actShort actMedium actLong
  rw [muDensityLow_eq_one_of_le h, muDensityMed_eq_zero_of_le h,
    muDensityHigh_eq_zero_of_le (h.trans (by norm_num)),
    muWaitShort_at_95, muWaitMed_at_95, muWaitLong_at_95]
  norm_num
  exact Or.inl (Or.inl (muGreenMed_nonneg g))

/-- Density between 25 and 55, wait 25: `low&short → short` at level `low(d)`
and `medium&short → medium` at level `medium(d)`. -/
theorem agg_caseB_25 {d : ℚ} (h2 : d ≤ 55) :
    aggCurve d 25 =
      fun g => max (min (muDensityLow d) (muGreenShort g))
        (min (muDensityMed d) (muGreenMed g)) := by
  funext g
  unfold aggCurve actShort actMedium actLong
  rw [muDensityHigh_eq_zero_of_le h2,
    muWaitShort_at_25, muWaitMed_at_25, muWaitLong_at_25]
  simp only [min_eq_left (muDensityLow_le_one d), min_eq_right (muDensityLow_nonneg d),
    min_eq_left (muDensityMed_le_one d), min_eq_right (muDensityMed_nonneg d)]
  norm_num
  simp only [max_eq_left (muDensityMed_nonneg d), max_eq_right (muDensityMed_nonneg d),
    min_eq_left (muGreenLong_nonneg g)]
  rw [max_eq_left (le_min (muDensityMed_nonneg d) (muGreenMed_nonneg g))]

/-- Density between 25 and 55, wait 95: `low&long → medium` at level `low(d)`
and `medium&long → long` at level `medium(d)`. -/
theorem agg_caseB_95 {d : ℚ} (h2 : d ≤ 55) :
    aggCurve d 95 =
      fun g => max (min (muDensityLow d) (muGreenMed g))
        (min (muDensityMed d) (muGreenLong g)) := by
  funext g
  unfold aggCurve actShort actMedium actLong
  rw [muDensityHigh_eq_zero_of_le h2,
    muWaitShort_at_95, muWaitMed_at_95, muWaitLong_at_95]
  simp only [min_eq_left (muDensityLow_le_one d), min_eq_right (muDensityLow_nonneg d),
    min_eq_left (muDensityMed_le_one d), min_eq_right (muDensityMed_nonneg d)]
  norm_num
  simp only [max_eq_left (muDensityLow_nonneg d), max_eq_left (muDensityMed_nonneg d),
    min_eq_left (muGreenShort_nonneg g)]
  rw [max_eq_right (le_trans (le_min (muDensityLow_nonneg d) (muGreenMed_nonneg g))
    (le_max_left _ _))]

/-- Density between 55 and 75, wait 95: the long consequent clipped at
`max(medium(d), high(d))`. -/
theorem agg_caseD_95 {d : ℚ} (h1 : 55 ≤ d) :
    aggCurve d 95 =
      fun g => min (max (muDensityMed d) (muDensityHigh d)) (muGreenLong g) := by
  funext g
  unfold aggCurve actShort actMedium actLong
  rw [muDensityLow_eq_zero_of_ge (by linarith),
    muWaitShort_at_95, muWaitMed_at_95, muWaitLong_at_95]
  simp only [min_eq_left (muDensityMed_le_one d), min_eq_right (muDensityMed_nonneg d),
    min_eq_left (muDensityHigh_le_one d), min_eq_right (muDensityHigh_nonneg d)]
  simp only [min_self, max_self, min_eq_left (show (0 : ℚ) ≤ 1 by norm_num),
    min_eq_left (muGreenShort_nonneg g), min_eq_left (muGreenMed_nonneg g),
    max_eq_right (muDensityHigh_nonneg d)]
  exact max_zero_zero _ (le_min (le_trans (muDensityMed_nonneg d) (le_max_left _ _))
    (muGreenLong_nonneg g))

/-- Density at least 75, wait 25: only `high&short → long` fires (fully). -/
theorem agg_caseE_25 {d : ℚ} (h : 75 ≤ d) :
    aggCurve d 25 = fun g => min 1 (muGreenLong g) := by
  funext g
  unfold aggCurve actShort actMedium actLong
  rw [muDensityLow_eq_zero_of_ge (by linarith), muDensityMed_eq_zero_of_ge h,
    muDensityHigh_eq_one_of_ge h,
    muWaitShort_at_25, muWaitMed_at_25, muWaitLong_at_25]
  norm_num
  simp only [min_eq_left (muGreenShort_nonneg g), min_eq_left (muGreenMed_nonneg g)]
  exact max_zero_zero _ (le_min (by norm_num) (muGreenLong_nonneg g))

/-- Density at least 75, wait 95: the high rules fire fully; the aggregate
coincides with the wait-25 one. -/
theorem agg_caseE_95 {d : ℚ} (h : 75 ≤ d) :
    aggCurve d 95 = fun g => min 1 (muGreenLong g) := by
  funext g
  unfold aggCurve actShort actMedium actLong
  rw [muDensityLow_eq_zero_of_ge (by linarith), muDensityMed_eq_zero_of_ge h,
    muDensityHigh_eq_one_of_ge h,
    muWaitShort_at_95, muWaitMed_at_95, muWaitLong_at_95]
  norm_num
  simp only [min_eq_left (muGreenShort_nonneg g), min_eq_left (muGreenMed_nonneg g)]
  exact max_zero_zero _ (le_min (by norm_num) (muGreenLong_nonneg g))

/-- C7: the rule-table-driven monotone tendency: for every fixed wait in
`[0,120]` the output at density 85 dominates the output at density 20, and
for every fixed density in `[0,100]` the output at wait 95 dominates the
output at wait 25. -/
theorem c7_monotone_tendency :
    (∀ w : ℚ, 0 ≤ w → w ≤ 120 → computeGreenTime 20 w ≤ computeGreenTime 85 w) ∧
      (∀ d : ℚ, 0 ≤ d → d ≤ 100 → computeGreenTime d 25 ≤ computeGreenTime d 95) := by
  constructor
  · intro w hw0 hw1
    have hcov := waitCoverage w
    have hle1 : max (muWaitShort w) (max (muWaitMed w) (muWaitLong w)) ≤ 1 :=
      max_le (muWaitShort_le_one w) (max_le (muWaitMed_le_one w) (muWaitLong_le_one w))
    have h85 : computeGreenTime 85 w = 60 :=
      compute_eq_60_of_long_clip 85 w _ (by norm_num) (by norm_num) hw0 hw1
        (agg_at_85 w) (lt_of_lt_of_le (by norm_num) hcov) hle1
    rw [h85]
    exact (computeGreenTime_range 20 w).2
  · intro d hd0 hd1
    rcases le_or_lt d 25 with hA | hA
    · have h25 : computeGreenTime d 25 ≤ 40 :=
        compute_le_40_of_short_med d 25 1 0 hd0 hd1 (by norm_num) (by norm_num)
          (by norm_num) (by norm_num) (Or.inl one_pos) (agg_caseA_25 hA)
      have h95 : 40 ≤ computeGreenTime d 95 :=
        compute_ge_40_of_med_long d 95 1 0 hd0 hd1 (by norm_num) (by norm_num)
          (by norm_num) (by norm_num) (Or.inl one_pos) (agg_caseA_95 hA)
      linarith
    · rcases le_or_lt d 55 with hB | hB
      · have hL0 := muDensityLow_nonneg d
        have hM0 := muDensityMed_nonneg d
        have hpos : 0 < muDensityLow d ∨ 0 < muDensityMed d := by
          rcases lt_or_le d 45 with h45 | h45
          · exact Or.inl (muDensityLow_pos_of_lt h45)
          · exact Or.inr (muDensityMed_pos_of_between h45 hB)
        have h25 : computeGreenTime d 25 ≤ 40 :=
          compute_le_40_of_short_med d 25 (muDensityLow d) (muDensityMed d) hd0 hd1
            (by norm_num) (by norm_num) hL0 hM0 hpos (agg_caseB_25 hB)
        have h95 : 40 ≤ computeGreenTime d 95 :=
          compute_ge_40_of_med_long d 95 (muDensityLow d) (muDensityMed d) hd0 hd1
            (by norm_num) (by norm_num) hL0 hM0 hpos (agg_caseB_95 hB)
        linarith
      · rcases le_or_lt d 75 with hD | hD
        · have hα1 : max (muDensityMed d) (muDensityHigh d) ≤ 1 :=
            max_le (muDensityMed_le_one d) (muDensityHigh_le_one d)
          have hα0 : 0 < max (muDensityMed d) (muDensityHigh d) := by
            rcases lt_or_le d 75 with h75 | h75
            · refine lt_max_of_lt_left ?_
              unfold muDensityMed
              rw [if_neg (by linarith), if_neg (by linarith), if_pos h75]
              linarith
            · exact lt_max_of_lt_right
                (by rw [muDensityHigh_eq_one_of_ge h75]; norm_num)
          have h95 : computeGreenTime d 95 = 60 :=
            compute_eq_60_of_long_clip d 95 _ hd0 hd1 (by norm_num) (by norm_num)
              (agg_caseD_95 hB.le) hα0 hα1
          rw [h95]
          exact (computeGreenTime_range d 25).2
        · have h25 : computeGreenTime d 25 = 60 :=
            compute_eq_60_of_long_clip d 25 1 hd0 hd1 (by norm_num) (by norm_num)
              (agg_caseE_25 hD.le) one_pos le_rfl
          have h95 : computeGreenTime d 95 = 60 :=
            compute_eq_60_of_long_clip d 95 1 hd0 hd1 (by norm_num) (by norm_num)
              (agg_caseE_95 hD.le) one_pos le_rfl
          rw [h25, h95]

/-- C7 witness: the monotone tendency at concrete inputs. -/
theorem c7_monotone_tendency_witness :
    computeGreenTime 20 60 ≤ computeGreenTime 85 60 ∧
      computeGreenTime 50 25 ≤ computeGreenTime 50 95 :=
  ⟨c7_monotone_tendency.1 60 (by norm_num) (by norm_num),
    c7_monotone_tendency.2 50 (by norm_num) (by norm_num)⟩

/-! ## The intersection simulation (`traffic_simulation.py`)

Positions are exact rationals; the per-tick waiting increment is `0.1` and
speeds are `±2.5`, both exactly representable.  Rendering (`draw`,
`TrafficLight` the on-screen widget, fonts, colors) is excluded: it only
reads simulation state. -/

/-- Travel axis of a vehicle (`direction` in the source). -/
inductive Direction
  | horizontal
  | vertical
deriving DecidableEq

/-- Per-direction light state string of the source. -/
inductive LightColor
  | RED
  | YELLOW
  | GREEN
deriving DecidableEq

/-- Spawn lane (`lane` in the source). -/
inductive Lane
  | east
  | west
  | north
  | south
deriving DecidableEq

/-- Source `Car.MIN_SPACING`. -/
def MIN_SPACING : ℚ := 40

/-- A vehicle agent.  `color` is dropped (rendering only); `maxSpeed` is the
signed `max_speed` set by `_set_initial_position`. -/
structure Car where
  lane : Lane
  id : ℕ
  direction : Direction
  x : ℚ
  y : ℚ
  maxSpeed : ℚ
  speed : ℚ
  waitingTime : ℚ
  passed : Bool
deriving DecidableEq

/-- Source `Car.__init__` + `_set_initial_position`: the direction argument of the
constructor always matches the lane's axis at the call site
(`generate_traffic`), so it is derived from the lane here.  `spawnOffset`
stands for `random.randint(0, 300)`. -/
def mkCar (lane : Lane) (carId : ℕ) (spawnOffset : ℚ) : Car :=
  match lane with
  | .east =>
      { lane := .east, id := carId, direction := .horizontal,
        x := -100 - spawnOffset, y := 340, maxSpeed := 5 / 2,
        speed := 0, waitingTime := 0, passed := false }
  | .west =>
      { lane := .west, id := carId, direction := .horizontal,
        x := 1100 + spawnOffset, y := 360, maxSpeed := -(5 / 2),
        speed := 0, waitingTime := 0, passed := false }
  | .north =>
      { lane := .north, id := carId, direction := .vertical,
        x := 460, y := -100 - spawnOffset, maxSpeed := 5 / 2,
        speed := 0, waitingTime := 0, passed := false }
  | .south =>
      { lane := .south, id := carId, direction := .vertical,
        x := 490, y := 800 + spawnOffset, maxSpeed := -(5 / 2),
        speed := 0, waitingTime := 0, passed := false }

/-- Source `Car.get_stop_line_position` (STOP_LINE_OFFSET = 50). -/
def stopLinePosition (c : Car) : ℚ :=
  match c.direction with
  | .horizontal => if 0 < c.maxSpeed then 400 - 50 else 550 + 50
  | .vertical => if 0 < c.maxSpeed then 300 - 50 else 400 + 50

/-- Source `Car.is_too_close_to_car_ahead`. -/
def isTooCloseToCarAhead (c : Car) (cars : List Car) : Bool :=
  cars.any fun other =>
    if other.id = c.id ∨ ¬other.direction = c.direction then false
    else
      match c.direction with
      | .horizontal =>
          decide (|other.y - c.y| < 10) &&
            (if 0 < c.maxSpeed then
              decide (c.x < other.x ∧ other.x - c.x < MIN_SPACING)
            else decide (other.x < c.x ∧ c.x - other.x < MIN_SPACING))
      | .vertical =>
          decide (|other.x - c.x| < 10) &&
            (if 0 < c.maxSpeed then
              decide (c.y < other.y ∧ other.y - c.y < MIN_SPACING)
            else decide (other.y < c.y ∧ c.y - other.y < MIN_SPACING))

/-- Source `Car.is_in_intersection`. -/
def isInIntersection (c : Car) : Bool :=
  decide (400 ≤ c.x ∧ c.x ≤ 550 ∧ 300 ≤ c.y ∧ c.y ≤ 400)

/-- Source `Car.should_stop_for_light`. -/
def shouldStopForLight (c : Car) (lightState : LightColor) : Bool :=
  if lightState = .GREEN then false
  else
    match c.direction with
    | .horizontal =>
        if 0 < c.maxSpeed then decide (stopLinePosition c ≤ c.x ∧ c.x ≤ 400)
        else decide (550 ≤ c.x ∧ c.x ≤ stopLinePosition c)
    | .vertical =>
        if 0 < c.maxSpeed then decide (stopLinePosition c ≤ c.y ∧ c.y ≤ 300)
        else decide (400 ≤ c.y ∧ c.y ≤ stopLinePosition c)

/-- Source `Car.update`: mark `passed_intersection` on entering the intersection,
decide stopping from the light and the spacing scan over `cars`, accumulate
waiting time (tick = 0.1) only while stopped and not yet passed, then move
along the travel axis. -/
def carUpdate (c : Car) (lightState : LightColor) (cars : List Car) : Car :=
  let c1 := if !c.passed && isInIntersection c then { c with passed := true } else c
  let newWait := if c1.passed then c1.waitingTime else c1.waitingTime + 1 / 10
  let c2 :=
    if shouldStopForLight c1 lightState || isTooCloseToCarAhead c1 cars then
      { c1 with speed := 0, waitingTime := newWait }
    else { c1 with speed := c1.maxSpeed }
  if c2.direction = .horizontal then { c2 with x := c2.x + c2.speed }
  else { c2 with y := c2.y + c2.speed }

/-- Source `Car.is_off_screen` (buffer = 200, canvas 1000 × 700). -/
def isOffScreen (c : Car) : Bool :=
  match c.direction with
  | .horizontal => decide (c.x < -200 ∨ 1000 + 200 < c.x)
  | .vertical => decide (c.y < -200 ∨ 700 + 200 < c.y)

/-- Iterated `Car.update` under a stream of per-tick inputs (light seen by
the car and vehicle list passed to the spacing scan). -/
def carEvolve (c : Car) : List (LightColor × List Car) → Car
  | [] => c
  | (l, ctx) :: rest => carEvolve (carUpdate c l ctx) rest

/-! ### Waiting-time and passed-flag invariants of `Car.update` -/

theorem red_ne_green : (LightColor.RED = LightColor.GREEN) = False :=
  eq_false fun h => LightColor.noConfusion h

theorem carUpdate_wait_mono (c : Car) (lightState : LightColor) (cars : List Car) :
    c.waitingTime ≤ (carUpdate c lightState cars).waitingTime := by
  obtain ⟨lane, cid, dir, x, y, ms, sp, wt, pd⟩ := c
  unfold carUpdate
  simp only [apply_ite Car.waitingTime, apply_ite Car.direction, apply_ite Car.speed,
    apply_ite Car.passed]
  cases dir <;> cases pd <;> split_ifs <;> simp_all

theorem carUpdate_wait_incr (c : Car) (lightState : LightColor) (cars : List Car)
    (hne : (carUpdate c lightState cars).waitingTime ≠ c.waitingTime) :
    (carUpdate c lightState cars).speed = 0 ∧
      (carUpdate c lightState cars).passed = false ∧
      (carUpdate c lightState cars).waitingTime = c.waitingTime + 1 / 10 := by
  obtain ⟨lane, cid, dir, x, y, ms, sp, wt, pd⟩ := c
  unfold carUpdate at *
  simp only [apply_ite Car.waitingTime, apply_ite Car.direction, apply_ite Car.speed,
    apply_ite Car.passed] at *
  cases dir <;> cases pd <;> split_ifs at * <;> simp_all

theorem carUpdate_passed_frozen (c : Car) (lightState : LightColor) (cars : List Car)
    (hp : c.passed = true) :
    (carUpdate c lightState cars).passed = true ∧
      (carUpdate c lightState cars).waitingTime = c.waitingTime := by
  obtain ⟨lane, cid, dir, x, y, ms, sp, wt, pd⟩ := c
  unfold carUpdate
  subst hp
  simp only [apply_ite Car.waitingTime, apply_ite Car.direction, apply_ite Car.speed,
    apply_ite Car.passed]
  cases dir <;> split_ifs <;> simp_all

theorem carUpdate_passed_mono (c : Car) (lightState : LightColor) (cars : List Car)
    (hp : (carUpdate c lightState cars).passed = false) : c.passed = false := by
  obtain ⟨lane, cid, dir, x, y, ms, sp, wt, pd⟩ := c
  unfold carUpdate at hp
  simp only [apply_ite Car.waitingTime, apply_ite Car.direction, apply_ite Car.speed,
    apply_ite Car.passed] at hp
  cases dir <;> cases pd <;> split_ifs at hp <;> simp_all

theorem carEvolve_wait_mono (c : Car) (inputs : List (LightColor × List Car)) :
    c.waitingTime ≤ (carEvolve c inputs).waitingTime := by
  induction inputs generalizing c with
  | nil => exact le_rfl
  | cons p rest ih =>
      obtain ⟨l, ctx⟩ := p
      exact le_trans (carUpdate_wait_mono c l ctx) (ih _)

theorem carEvolve_passed_frozen (c : Car) (inputs : List (LightColor × List Car))
    (hp : c.passed = true) :
    (carEvolve c inputs).passed = true ∧
      (carEvolve c inputs).waitingTime = c.waitingTime := by
  induction inputs generalizing c with
  | nil => exact ⟨hp, rfl⟩
  | cons p rest ih =>
      obtain ⟨l, ctx⟩ := p
      have h1 := carUpdate_passed_frozen c l ctx hp
      have h2 := ih (carUpdate c l ctx) h1.1
      refine ⟨h2.1, ?_⟩
      show (carEvolve (carUpdate c l ctx) rest).waitingTime = c.waitingTime
      rw [h2.2, h1.2]

/-- C6: per tick, `waiting_time` is non-decreasing; it changes only by
exactly the tick duration 0.1 and only when the vehicle ends the tick
stopped (`speed = 0`) with `passed_intersection` false; once
`passed_intersection` is true it stays true and `waiting_time` never
changes again (also along any multi-tick evolution); and
`passed_intersection` never resets to false. -/
theorem c6_waiting_time_accumulation :
    (∀ (c : Car) (lightState : LightColor) (cars : List Car),
        c.waitingTime ≤ (carUpdate c lightState cars).waitingTime) ∧
      (∀ (c : Car) (lightState : LightColor) (cars : List Car),
        (carUpdate c lightState cars).waitingTime ≠ c.waitingTime →
          (carUpdate c lightState cars).speed = 0 ∧
            (carUpdate c lightState cars).passed = false ∧
            (carUpdate c lightState cars).waitingTime = c.waitingTime + 1 / 10) ∧
      (∀ (c : Car) (lightState : LightColor) (cars : List Car),
        c.passed = true →
          (carUpdate c lightState cars).passed = true ∧
            (carUpdate c lightState cars).waitingTime = c.waitingTime) ∧
      (∀ (c : Car) (lightState : LightColor) (cars : List Car),
        (carUpdate c lightState cars).passed = false → c.passed = false) ∧
      (∀ (c : Car) (inputs : List (LightColor × List Car)),
        c.waitingTime ≤ (carEvolve c inputs).waitingTime) ∧
      (∀ (c : Car) (inputs : List (LightColor × List Car)),
        c.passed = true →
          (carEvolve c inputs).passed = true ∧
            (carEvolve c inputs).waitingTime = c.waitingTime) :=
  ⟨carUpdate_wait_mono, carUpdate_wait_incr, carUpdate_passed_frozen,
    carUpdate_passed_mono, carEvolve_wait_mono, carEvolve_passed_frozen⟩

/-- C6 witness: a car held at the red-light stop line accumulates exactly
0.1 while not passed; a car already past the intersection keeps its
waiting time along any evolution. -/
theorem c6_waiting_time_accumulation_witness :
    ((carUpdate { mkCar Lane.east 0 0 with x := 360 } LightColor.RED []).speed = 0 ∧
        (carUpdate { mkCar Lane.east 0 0 with x := 360 } LightColor.RED []).passed = false ∧
        (carUpdate { mkCar Lane.east 0 0 with x := 360 } LightColor.RED []).waitingTime =
          ({ mkCar Lane.east 0 0 with x := 360 } : Car).waitingTime + 1 / 10) ∧
      ((carEvolve { mkCar Lane.east 1 0 with passed := true }
            [(LightColor.GREEN, [])]).passed = true ∧
        (carEvolve { mkCar Lane.east 1 0 with passed := true }
            [(LightColor.GREEN, [])]).waitingTime =
          ({ mkCar Lane.east 1 0 with passed := true } : Car).waitingTime) :=
  ⟨c6_waiting_time_accumulation.2.1 { mkCar Lane.east 0 0 with x := 360 }
      LightColor.RED []
      (by
        simp only [carUpdate, mkCar, isInIntersection, shouldStopForLight,
          stopLinePosition, isTooCloseToCarAhead, MIN_SPACING, List.any_nil,
          Bool.or_false, Bool.not_false, Bool.and_eq_true, decide_eq_true_eq,
          red_ne_green]
        norm_num),
    c6_waiting_time_accumulation.2.2.2.2.2 { mkCar Lane.east 1 0 with passed := true }
      [(LightColor.GREEN, [])] rfl⟩

/-! ### The light state machine of `TrafficSimulation` -/

/-- Source `self.yellow_duration = 4`. -/
def yellowDuration : ℚ := 4

/-- Light state, phase timer and current green duration of
`TrafficSimulation` (`light_state`, `light_timer`,
`current_green_duration`). -/
structure SimState where
  horizontal : LightColor
  vertical : LightColor
  timer : ℚ
  greenDuration : ℚ
deriving DecidableEq

/-- The vehicles of a direction not yet past the intersection
(`direction_cars` in `_calculate_green_time`). -/
def pendingCars (cars : List Car) (d : Direction) : List Car :=
  cars.filter fun c => decide (c.direction = d) && !c.passed

/-- Source `TrafficSimulation._calculate_green_time`, generalized over the
controller so that "the Inference Engine is not invoked" is expressible:
with vehicles pending, density is `min(100, 10·count)` and wait is the mean
waiting time; with none, the fixed default 20 is used. -/
def calculateGreenTimeWith (ctrl : ℚ → ℚ → ℚ) (cars : List Car)
    (d : Direction) : ℚ :=
  let dcars := pendingCars cars d
  if dcars.length = 0 then 20
  else ctrl (min 100 (10 * dcars.length)) ((dcars.map Car.waitingTime).sum / dcars.length)

/-- Source `_calculate_green_time` with the real fuzzy controller. -/
def calculateGreenTime : List Car → Direction → ℚ :=
  calculateGreenTimeWith computeGreenTime

/-- Source `TrafficSimulation.update_lights`: advance the phase timer by the tick
0.1 and run the four-way `if/elif` transition chain; the display update of
the first loop is rendering and is omitted. -/
def updateLights (s : SimState) (cars : List Car) : SimState :=
  let t := s.timer + 1 / 10
  if s.horizontal = .GREEN ∧ s.greenDuration ≤ t then
    { s with horizontal := .YELLOW, timer := 0 }
  else if s.horizontal = .YELLOW ∧ yellowDuration ≤ t then
    { horizontal := .RED, vertical := .GREEN, timer := 0,
      greenDuration := calculateGreenTime cars .vertical }
  else if s.vertical = .GREEN ∧ s.greenDuration ≤ t then
    { s with vertical := .YELLOW, timer := 0 }
  else if s.vertical = .YELLOW ∧ yellowDuration ≤ t then
    { horizontal := .GREEN, vertical := .RED, timer := 0,
      greenDuration := calculateGreenTime cars .horizontal }
  else { s with timer := t }

/-- The initial simulation state set in `__init__`. -/
def initState : SimState :=
  { horizontal := .GREEN, vertical := .RED, timer := 0, greenDuration := 30 }

/-- States of the light machine reachable from the initial state by ticking
`update_lights` with arbitrary vehicle lists. -/
inductive Reachable : SimState → Prop
  | init : Reachable initState
  | step (s : SimState) (cars : List Car) : Reachable s → Reachable (updateLights s cars)

/-- Exactly one axis is GREEN or YELLOW while the other is RED. -/
def mutexInvariant (s : SimState) : Prop :=
  ((s.horizontal = .GREEN ∨ s.horizontal = .YELLOW) ∧ s.vertical = .RED) ∨
    ((s.vertical = .GREEN ∨ s.vertical = .YELLOW) ∧ s.horizontal = .RED)

theorem mutex_preserved (s : SimState) (cars : List Car) (hs : mutexInvariant s) :
    mutexInvariant (updateLights s cars) := by
  obtain ⟨lh, lv, t, gd⟩ := s
  simp only [updateLights, mutexInvariant] at hs ⊢
  split_ifs with h1 h2 h3 h4 <;> simp_all

theorem reachable_mutex (s : SimState) (hs : Reachable s) : mutexInvariant s := by
  induction hs with
  | init => exact Or.inl ⟨Or.inl rfl, rfl⟩
  | step s cars hr ih => exact mutex_preserved s cars ih

theorem transition_to_green_v (s : SimState) (cars : List Car)
    (hH : s.horizontal = .YELLOW) (ht : yellowDuration ≤ s.timer + 1 / 10) :
    (updateLights s cars).vertical = .GREEN ∧
      (updateLights s cars).greenDuration = calculateGreenTime cars .vertical := by
  simp only [updateLights]
  rw [if_neg (by simp [hH]), if_pos ⟨hH, ht⟩]
  exact ⟨rfl, rfl⟩

theorem transition_to_green_h (s : SimState) (cars : List Car)
    (hH : s.horizontal = .RED) (hV : s.vertical = .YELLOW)
    (ht : yellowDuration ≤ s.timer + 1 / 10) :
    (updateLights s cars).horizontal = .GREEN ∧
      (updateLights s cars).greenDuration = calculateGreenTime cars .horizontal := by
  simp only [updateLights]
  rw [if_neg (by simp [hH]), if_neg (by simp [hH]), if_neg (by simp [hV]),
    if_pos ⟨hV, ht⟩]
  exact ⟨rfl, rfl⟩

/-- C2: from the initial state (horizontal GREEN, vertical RED), every state
reachable through `update_lights`, with arbitrary vehicle lists at each
tick, keeps the axes mutually exclusive: never both GREEN, never both
YELLOW, never GREEN on one axis with YELLOW on the other; exactly one axis
is GREEN or YELLOW while the other is RED. -/
theorem c2_light_mutual_exclusion (s : SimState) (hs : Reachable s) :
    ¬(s.horizontal = .GREEN ∧ s.vertical = .GREEN) ∧
      ¬(s.horizontal = .YELLOW ∧ s.vertical = .YELLOW) ∧
      ¬(s.horizontal = .GREEN ∧ s.vertical = .YELLOW) ∧
      ¬(s.horizontal = .YELLOW ∧ s.vertical = .GREEN) ∧
      (((s.horizontal = .GREEN ∨ s.horizontal = .YELLOW) ∧ s.vertical = .RED) ∨
        ((s.vertical = .GREEN ∨ s.vertical = .YELLOW) ∧ s.horizontal = .RED)) := by
  have hinv := reachable_mutex s hs
  refine ⟨?_, ?_, ?_, ?_, hinv⟩ <;>
    · rintro ⟨hA, hB⟩
      rcases hinv with ⟨hh, hv⟩ | ⟨hv, hh⟩ <;> simp_all

/-- C2 witness: the invariant at the initial state. -/
theorem c2_light_mutual_exclusion_witness :
    ¬(initState.horizontal = .GREEN ∧ initState.vertical = .GREEN) ∧
      ¬(initState.horizontal = .YELLOW ∧ initState.vertical = .YELLOW) ∧
      ¬(initState.horizontal = .GREEN ∧ initState.vertical = .YELLOW) ∧
      ¬(initState.horizontal = .YELLOW ∧ initState.vertical = .GREEN) ∧
      (((initState.horizontal = .GREEN ∨ initState.horizontal = .YELLOW) ∧
          initState.vertical = .RED) ∨
        ((initState.vertical = .GREEN ∨ initState.vertical = .YELLOW) ∧
          initState.horizontal = .RED)) :=
  c2_light_mutual_exclusion initState Reachable.init

theorem calculateGreenTimeWith_empty (ctrl : ℚ → ℚ → ℚ) (cars : List Car)
    (d : Direction) (h : pendingCars cars d = []) :
    calculateGreenTimeWith ctrl cars d = 20 := by
  simp [calculateGreenTimeWith, h]

theorem calculateGreenTime_nonempty (cars : List Car) (d : Direction)
    (h : pendingCars cars d ≠ []) :
    calculateGreenTime cars d =
      computeGreenTime (min 100 (10 * (pendingCars cars d).length))
        (((pendingCars cars d).map Car.waitingTime).sum /
          (pendingCars cars d).length) := by
  simp only [calculateGreenTime, calculateGreenTimeWith]
  rw [if_neg fun h0 => h (List.length_eq_zero.mp h0)]

/-- C4: at each transition where a direction turns GREEN, the new green
duration is `_calculate_green_time` of that direction; its controller inputs
are computed from exactly the pending (same-direction, not-passed) vehicles
as density `min(100, 10·count)` and mean waiting time; and with no pending
vehicle the result is the fixed default 20, independent of the controller
function — the Inference Engine is not invoked. -/
theorem c4_green_transition_controller_inputs :
    (∀ (cars : List Car) (d : Direction) (f g : ℚ → ℚ → ℚ),
        pendingCars cars d = [] →
          calculateGreenTimeWith f cars d = 20 ∧
            calculateGreenTimeWith f cars d = calculateGreenTimeWith g cars d) ∧
      (∀ (cars : List Car) (d : Direction),
        pendingCars cars d ≠ [] →
          calculateGreenTime cars d =
            computeGreenTime (min 100 (10 * (pendingCars cars d).length))
              (((pendingCars cars d).map Car.waitingTime).sum /
                (pendingCars cars d).length)) ∧
      (∀ (s : SimState) (cars : List Car),
        s.horizontal = .YELLOW → yellowDuration ≤ s.timer + 1 / 10 →
          (updateLights s cars).vertical = .GREEN ∧
            (updateLights s cars).greenDuration =
              calculateGreenTime cars .vertical) ∧
      (∀ (s : SimState) (cars : List Car),
        s.horizontal = .RED → s.vertical = .YELLOW →
          yellowDuration ≤ s.timer + 1 / 10 →
          (updateLights s cars).horizontal = .GREEN ∧
            (updateLights s cars).greenDuration =
              calculateGreenTime cars .horizontal) :=
  ⟨fun cars d f g h =>
      ⟨calculateGreenTimeWith_empty f cars d h, by
        rw [calculateGreenTimeWith_empty f cars d h,
          calculateGreenTimeWith_empty g cars d h]⟩,
    calculateGreenTime_nonempty, transition_to_green_v, transition_to_green_h⟩

/-- C4 witness: the empty default, the pending-vehicle formula and a
concrete YELLOW-to-RED handover. -/
theorem c4_green_transition_controller_inputs_witness :
    (calculateGreenTimeWith (fun _ _ => 99) [] Direction.horizontal = 20 ∧
        calculateGreenTimeWith (fun _ _ => 99) [] Direction.horizontal =
          calculateGreenTimeWith (fun _ _ => 55) [] Direction.horizontal) ∧
      calculateGreenTime [mkCar Lane.east 0 0] Direction.horizontal =
        computeGreenTime
          (min 100 (10 * (pendingCars [mkCar Lane.east 0 0] Direction.horizontal).length))
          (((pendingCars [mkCar Lane.east 0 0] Direction.horizontal).map
              Car.waitingTime).sum /
            (pendingCars [mkCar Lane.east 0 0] Direction.horizontal).length) ∧
      ((updateLights ⟨.RED, .YELLOW, 39 / 10, 30⟩ []).horizontal = .GREEN ∧
        (updateLights ⟨.RED, .YELLOW, 39 / 10, 30⟩ []).greenDuration =
          calculateGreenTime [] .horizontal) :=
  ⟨c4_green_transition_controller_inputs.1 [] Direction.horizontal
      (fun _ _ => 99) (fun _ _ => 55) rfl,
    c4_green_transition_controller_inputs.2.1 [mkCar Lane.east 0 0]
      Direction.horizontal (by decide),
    c4_green_transition_controller_inputs.2.2.2 ⟨.RED, .YELLOW, 39 / 10, 30⟩ []
      rfl rfl (by norm_num [yellowDuration])⟩

/-! ### `TrafficSimulation.update_cars` -/

/-- Source `self.light_state[car.direction]`. -/
def lightFor (lh lv : LightColor) (d : Direction) : LightColor :=
  match d with
  | .horizontal => lh
  | .vertical => lv

/-- The loop of `update_cars`: iterate over a copy of the list, update each
car in place against the live list `self.cars` (already-updated survivors
`done`, then the current car and the not-yet-updated tail), and remove it
immediately if it went off screen. -/
def updateCarsGo (lh lv : LightColor) (done : List Car) : List Car → List Car
  | [] => done
  | c :: rest =>
      let c2 := carUpdate c (lightFor lh lv c.direction) (done ++ c :: rest)
      if isOffScreen c2 then updateCarsGo lh lv done rest
      else updateCarsGo lh lv (done ++ [c2]) rest

/-- Source `TrafficSimulation.update_cars`. -/
def updateCarsCode (lh lv : LightColor) (cars : List Car) : List Car :=
  updateCarsGo lh lv [] cars

/-- The consistent-snapshot reference the spec postulates: every car's
spacing scan reads the list as it was before the tick's update phase. -/
def updateCarsSnapshot (lh lv : LightColor) (cars : List Car) : List Car :=
  (cars.map fun c => carUpdate c (lightFor lh lv c.direction) cars).filter
    fun c => !isOffScreen c

/-- The sequential in-place semantics as a left fold: the state is the pair
(updated survivors so far, suffix still holding previous-tick values, with
the current car at its head); each car is updated against their
concatenation. -/
def updateCarsSeq (lh lv : LightColor) (cars : List Car) : List Car :=
  (cars.foldl
    (fun (p : List Car × List Car) (c : Car) =>
      let c2 := carUpdate c (lightFor lh lv c.direction) (p.1 ++ p.2)
      ((if isOffScreen c2 then p.1 else p.1 ++ [c2]), p.2.tail))
    ([], cars)).1

theorem updateCarsGo_foldl (lh lv : LightColor) (rest : List Car) :
    ∀ done : List Car,
      (rest.foldl
          (fun (p : List Car × List Car) (c : Car) =>
            let c2 := carUpdate c (lightFor lh lv c.direction) (p.1 ++ p.2)
            ((if isOffScreen c2 then p.1 else p.1 ++ [c2]), p.2.tail))
          (done, rest)).1 = updateCarsGo lh lv done rest := by
  induction rest with
  | nil => intro done; rfl
  | cons c rest ih =>
      intro done
      simp only [List.foldl_cons, updateCarsGo, List.tail_cons]
      by_cases hoff :
        isOffScreen (carUpdate c (lightFor lh lv c.direction) (done ++ c :: rest)) = true
      · simp only [hoff, if_true]
        exact ih done
      · simp only [Bool.not_eq_true] at hoff
        simp only [hoff, if_false, Bool.false_eq_true]
        exact ih (done ++ [carUpdate c (lightFor lh lv c.direction) (done ++ c :: rest)])

/-- C5 counterexample: two eastbound cars 39 apart with a green light.
Under the code's in-place update the leader moves first, the follower then
sees the new gap 41.5 and moves too; under the snapshot reference the
follower sees the old gap 39 < MIN_SPACING and stops.  The per-tick update
is therefore not equal to the snapshot reference. -/
theorem c5_counterexample_not_snapshot :
    updateCarsCode .GREEN .RED
        [{ mkCar .east 0 0 with x := 60 }, { mkCar .east 1 0 with x := 21 }] ≠
      updateCarsSnapshot .GREEN .RED
        [{ mkCar .east 0 0 with x := 60 }, { mkCar .east 1 0 with x := 21 }] := by
  simp only [updateCarsCode, updateCarsGo, updateCarsSnapshot, carUpdate, lightFor,
    mkCar, isInIntersection, shouldStopForLight, stopLinePosition,
    isTooCloseToCarAhead, isOffScreen, MIN_SPACING, List.any_cons, List.any_nil,
    List.map, List.filter, List.append_nil, List.nil_append, List.cons_append,
    Bool.or_eq_true, Bool.and_eq_true, decide_eq_true_eq, Bool.not_false,
    Bool.not_true, red_ne_green, sub_self, abs_zero]
  norm_num

/-- C5 amended: within one tick, vehicles are updated sequentially in list
order against the live list, so each spacing check sees this tick's new
positions for vehicles processed earlier (with off-screen ones already
removed) and the previous tick's positions for the vehicle itself and the
later ones; the per-tick update equals this sequential left-fold semantics,
not the order-independent snapshot reference. -/
theorem c5_update_cars_is_sequential (lh lv : LightColor) (cars : List Car) :
    updateCarsCode lh lv cars = updateCarsSeq lh lv cars :=
  (updateCarsGo_foldl lh lv cars []).symm

/-! ### `generate_traffic` spawn blocking -/

/-- Source `TrafficSimulation._is_spawn_blocked`: any existing vehicle of the same
direction within `2 * MIN_SPACING` along the travel axis blocks the spawn;
the lane of the existing vehicle is never consulted. -/
def isSpawnBlocked (cars : List Car) (newCar : Car) : Bool :=
  cars.any fun car =>
    if ¬car.direction = newCar.direction then false
    else
      decide ((if newCar.direction = .horizontal then |car.x - newCar.x|
               else |car.y - newCar.y|) < MIN_SPACING * 2)

/-- The append decision of `generate_traffic` for one direction in one
tick: `spawnRoll` stands for `random.random() < spawn_rate and
time_since_last > 500`; the car is appended only if the spawn position is
not blocked. -/
def generateTrafficStep (cars : List Car) (newCar : Car) (spawnRoll : Bool) : List Car :=
  if spawnRoll && !isSpawnBlocked cars newCar then cars ++ [newCar] else cars

theorem isSpawnBlocked_eq_false_iff (cars : List Car) (newCar : Car) :
    isSpawnBlocked cars newCar = false ↔
      ∀ car ∈ cars, car.direction = newCar.direction →
        MIN_SPACING * 2 ≤
          (if newCar.direction = .horizontal then |car.x - newCar.x|
           else |car.y - newCar.y|) := by
  unfold isSpawnBlocked
  rw [List.any_eq_false]
  constructor
  · intro h car hc hdir
    have h2 := h car hc
    rw [if_neg (not_not_intro hdir)] at h2
    simp only [decide_eq_true_eq, not_lt] at h2
    exact h2
  · intro h car hc
    by_cases hdir : car.direction = newCar.direction
    · rw [if_neg (not_not_intro hdir)]
      simp only [decide_eq_true_eq, not_lt]
      exact h car hc hdir
    · rw [if_pos hdir]
      simp

/-- C10: a newly generated vehicle is appended exactly when the roll
succeeds and every existing same-direction vehicle sits at axis distance at
least `2 * MIN_SPACING = 80` from the spawn position; and the check ignores
lanes — a westbound car in the other lane of the horizontal axis blocks an
eastbound spawn. -/
theorem c10_spawn_blocking_ignores_lane :
    (∀ (cars : List Car) (newCar : Car) (spawnRoll : Bool),
        generateTrafficStep cars newCar spawnRoll = cars ++ [newCar] ↔
          spawnRoll = true ∧
            ∀ car ∈ cars, car.direction = newCar.direction →
              MIN_SPACING * 2 ≤
                (if newCar.direction = .horizontal then |car.x - newCar.x|
                 else |car.y - newCar.y|)) ∧
      isSpawnBlocked [{ mkCar .west 3 0 with x := -80 }] (mkCar .east 5 0) = true := by
  constructor
  · intro cars newCar roll
    unfold generateTrafficStep
    by_cases hroll : roll = true
    · by_cases hbl : isSpawnBlocked cars newCar = true
      · have hne : cars ≠ cars ++ [newCar] := by simp
        rw [if_neg (by simp [hbl])]
        simp only [hroll, true_and]
        constructor
        · intro h
          exact absurd h hne
        · intro h
          have h3 := (isSpawnBlocked_eq_false_iff cars newCar).mpr h
          rw [h3] at hbl
          exact absurd hbl (by simp)
      · have hbl2 : isSpawnBlocked cars newCar = false := Bool.not_eq_true _ |>.mp hbl
        rw [if_pos (by simp [hroll, hbl2])]
        simp only [hroll, true_and]
        constructor
        · intro _
          exact (isSpawnBlocked_eq_false_iff cars newCar).mp hbl2
        · intro _
          trivial
    · rw [if_neg (by simp [Bool.not_eq_true _ |>.mp hroll])]
      constructor
      · intro h
        exact absurd h (by simp)
      · rintro ⟨h2, _⟩
        exact absurd h2 hroll
  · simp only [isSpawnBlocked, mkCar, MIN_SPACING, List.any_cons, List.any_nil]
    norm_num

/-- C10 witness: with no existing vehicles and a successful roll, the new
car is appended. -/
theorem c10_spawn_blocking_ignores_lane_witness :
    generateTrafficStep [] (mkCar Lane.east 7 0) true = [] ++ [mkCar Lane.east 7 0] :=
  (c10_spawn_blocking_ignores_lane.1 [] (mkCar Lane.east 7 0) true).mpr
    ⟨rfl, by simp⟩

end Traffic

